import Mathlib

/-!
Verification of the auto-tool-switcher MCP gateway (cascade implementation).

The definitions below are a shallow embedding of the JavaScript source:

* `namespaceOf`        — `server.name.toLowerCase().replace(/\s+/g, '_')`
  (src/unnamed/part_012 lines 116, 227, 895).
* `routeToolCall`      — the `tools/call` dispatch of `processMessage`
  (src/unnamed/part_012 lines 651-932).
* `handleServersEnable`, `handleServersDisable`, `handleServersList`,
  `handleRefreshTools` — the admin-tool branches (part_012 lines 658-883,
  identical logic in src/src/cascade/tools.js).
* `envelopeCheck`      — the JSON-RPC envelope validation
  (part_012 lines 523-533, src/src/cascade/server.js lines 30-39,
  src/mcp-server.js lines 800-809).
* `toolsListStep`      — the `tools/list` branch (part_012 lines 556-648,
  src/src/cascade/server.js lines 105-146).
* `saveConfigOps`      — `saveConfig` as a file-system trace
  (part_012 lines 478-487, src/unnamed/part_002 lines 33-42).

Stateful behaviour is modelled by explicit state passing: an admin-tool handler
maps a configuration and the tool parameters to the new configuration plus an
ordered list of `Effect`s (file save, `update/tools` notification, JSON-RPC
response), mirroring the order in which the source performs them.
-/

/-- One downstream server entry of `servers.json` (spec: ServerRecord). -/
structure ServerRecord where
  name : String
  url : String
  enabled : Bool
deriving Repr, DecidableEq

/-- The parsed `servers.json` document: `{ tool_limit, servers }`. -/
structure Config where
  tool_limit : Nat
  servers : List ServerRecord
deriving Repr, DecidableEq

/-- Characters matched by the JavaScript regex class `\s` (ASCII part; the
source never feeds it non-ASCII names in the repository's configs). -/
def isJsWhitespace (c : Char) : Bool :=
  c = ' ' || c = '\t' || c = '\n' || c = '\x0d' || c = '\x0b' || c = '\x0c'

/-- Core of `name.toLowerCase().replace(/\s+/g, '_')`: lowercase every
character and replace each maximal run of whitespace by one underscore.
The flag records whether the previous character was part of a whitespace
run already replaced. -/
def collapseAux : Bool → List Char → List Char
  | _, [] => []
  | prevWs, c :: rest =>
    if isJsWhitespace c then
      (if prevWs then [] else ['_']) ++ collapseAux true rest
    else
      c.toLower :: collapseAux false rest

/-- Namespace derivation used throughout part_012:
`server.name.toLowerCase().replace(/\s+/g, '_')`. -/
def namespaceOf (name : String) : String :=
  ⟨collapseAux false name.data⟩

/-- Split a character list at the first underscore: everything before it and
everything after it, or `none` when there is no underscore.  This models
`toolName.split('_')` followed by `parts[0]` and `parts.slice(1).join('_')`
(part_012 lines 887-890): `parts.length >= 2` holds exactly when the name
contains an underscore, `parts[0]` is the text before the first one, and
re-joining the remaining parts restores the text after the first one. -/
def breakAtUnder : List Char → Option (List Char × List Char)
  | [] => none
  | c :: rest =>
    if c = '_' then some ([], rest)
    else
      match breakAtUnder rest with
      | none => none
      | some (pre, post) => some (c :: pre, post)

/-- The four built-in tool names checked before server routing
(part_012 lines 658, 698, 785, 859). -/
def isBuiltinTool (toolName : String) : Bool :=
  toolName = "mcp0_servers_list" || toolName = "mcp0_servers_enable" ||
  toolName = "mcp0_servers_disable" || toolName = "mcp0_refresh_tools"

/-- Outcome of dispatching a `tools/call` name. -/
inductive RouteResult where
  /-- the call is handled by one of the four built-in admin handlers -/
  | admin (toolName : String)
  /-- the call is forwarded to `server` under the downstream name `origName` -/
  | forward (server : ServerRecord) (origName : String)
  /-- reply error `-32601` "Method not found" -/
  | methodNotFound
deriving Repr, DecidableEq

/-- Tool-name routing of `processMessage`'s `tools/call` branch
(part_012 lines 651-932): the four built-ins are matched by exact name;
otherwise the name is split on `'_'`, the segment before the first
underscore is compared with the namespace of each server, and the first
enabled server whose namespace equals that segment receives the remainder
as its original tool name.  Anything else is `-32601`. -/
def routeToolCall (config : Config) (toolName : String) : RouteResult :=
  if isBuiltinTool toolName then
    .admin toolName
  else
    match breakAtUnder toolName.data with
    | none => .methodNotFound
    | some (pre, post) =>
      match config.servers.find? (fun s => namespaceOf s.name == (⟨pre⟩ : String) && s.enabled) with
      | some server => .forward server ⟨post⟩
      | none => .methodNotFound

/-- Modelled from the spec (§4.6 step 2 and the tie-break rule): `true` when
`toolName` starts with the namespace `ns` followed immediately by an
underscore. -/
def nsBoundaryMatch (ns : List Char) (toolName : List Char) : Bool :=
  match toolName.drop ns.length with
  | '_' :: _ => toolName.take ns.length == ns
  | _ => false

/-- Modelled from the spec (§4.6 tie-break): among the matching servers keep
the one with the longest namespace (first wins on equal length). -/
def pickLongestNs : List ServerRecord → Option ServerRecord
  | [] => none
  | s :: rest =>
    match pickLongestNs rest with
    | none => some s
    | some b =>
      if (namespaceOf b.name).length > (namespaceOf s.name).length then some b else some s

/-- Modelled from the spec (§4.6): resolve a non-built-in tool name by the
longest namespace prefix, with an exact namespace + underscore boundary,
belonging to an enabled server; forward the remainder after that underscore. -/
def specRouteToolCall (config : Config) (toolName : String) : RouteResult :=
  if isBuiltinTool toolName then
    .admin toolName
  else
    let candidates := config.servers.filter
      (fun s => s.enabled && nsBoundaryMatch (namespaceOf s.name).data toolName.data)
    match pickLongestNs candidates with
    | some s => .forward s ⟨toolName.data.drop ((namespaceOf s.name).data.length + 1)⟩
    | none => .methodNotFound

/-- The `status` view sent in admin-tool replies:
`{ name, url, status: 'ENABLED' | 'DISABLED' }`. -/
structure ServerView where
  name : String
  url : String
  status : String
deriving Repr, DecidableEq

/-- Count of enabled records in a server list (`getEnabledCount`,
part_012 lines 490-492 / src/unnamed/part_002 lines 49-51). -/
def enabledCountL (servers : List ServerRecord) : Nat :=
  (servers.filter (fun s => s.enabled)).length

/-- `getEnabledCount(config)` of the source. -/
def getEnabledCount (config : Config) : Nat :=
  enabledCountL config.servers

/-- `config.servers.find(s => s.name === serverName)`. -/
def findServer (servers : List ServerRecord) (n : String) : Option ServerRecord :=
  servers.find? (fun s => s.name == n)

/-- JavaScript `server.enabled = b` mutates the record object returned by
`find`, i.e. the first record with the given name; later duplicates are
untouched. -/
def setEnabledFirst : List ServerRecord → String → Bool → List ServerRecord
  | [], _, _ => []
  | s :: rest, n, b =>
    if s.name == n then { s with enabled := b } :: rest
    else s :: setEnabledFirst rest n b

/-- Payload of the `servers_list` success reply (part_012 lines 681-692). -/
structure ServersListData where
  tool_limit : Nat
  enabled_count : Nat
  servers : List ServerView
  message : String
deriving Repr, DecidableEq

/-- A JSON-RPC reply emitted by an admin-tool handler: either a success
`result.data` payload or an `error {code, message}`. -/
inductive ToolReply where
  /-- `result.data = { success: true, message, server }` -/
  | ok (message : String) (server : Option ServerView)
  /-- `result.data` of `servers_list` -/
  | listData (data : ServersListData)
  /-- `result.data = { success: true, message, enabled_servers }` -/
  | refreshed (message : String) (enabled_servers : Nat)
  /-- `error = { code, message }` -/
  | err (code : Int) (message : String)
deriving Repr, DecidableEq

/-- One observable action of a handler, in source order: persist the
configuration (`saveConfig`), write an `update/tools` notification line, or
send the JSON-RPC response (`sendResponse`). -/
inductive Effect where
  | save (config : Config)
  | notify (message : String)
  | respond (reply : ToolReply)
deriving Repr, DecidableEq

/-- JavaScript `toolParams.name || dflt`: an absent or empty (falsy) `name`
parameter is replaced by the default. -/
def effName (nameParam : Option String) (dflt : String) : String :=
  match nameParam with
  | some n => if n = "" then dflt else n
  | none => dflt

/-- `mcp0_servers_enable` handler (part_012 lines 698-783; identical logic in
src/src/cascade/tools.js `handleServersEnable`).  Returns the new in-memory
configuration and the ordered effects: the error/no-op branches only respond;
the mutating branch saves the new configuration, emits the notification, and
then responds, in that order. -/
def handleServersEnable (config : Config) (nameParam : Option String) :
    Config × List Effect :=
  let serverName := effName nameParam "MCP Alpha"
  match findServer config.servers serverName with
  | none =>
    (config, [.respond (.err (-32602) ("Server \x27" ++ serverName ++ "\x27 not found"))])
  | some server =>
    if server.enabled then
      (config, [.respond (.ok ("Server \x27" ++ serverName ++ "\x27 is already enabled")
        (some ⟨server.name, server.url, "ENABLED"⟩))])
    else if getEnabledCount config ≥ config.tool_limit then
      (config, [.respond (.err (-32602)
        ("Tool limit (" ++ toString config.tool_limit ++ ") reached. Disable another server first."))])
    else
      let config2 : Config := { config with servers := setEnabledFirst config.servers serverName true }
      (config2,
        [.save config2,
         .notify ("Server \x27" ++ serverName ++ "\x27 enabled"),
         .respond (.ok ("Server \x27" ++ serverName ++ "\x27 enabled")
           (some ⟨server.name, server.url, "ENABLED"⟩))])

/-- `mcp0_servers_disable` handler (part_012 lines 785-856; identical logic in
src/src/cascade/tools.js `handleServersDisable`). -/
def handleServersDisable (config : Config) (nameParam : Option String) :
    Config × List Effect :=
  let serverName := effName nameParam "MCP Beta"
  match findServer config.servers serverName with
  | none =>
    (config, [.respond (.err (-32602) ("Server \x27" ++ serverName ++ "\x27 not found"))])
  | some server =>
    if !server.enabled then
      (config, [.respond (.ok ("Server \x27" ++ serverName ++ "\x27 is already disabled")
        (some ⟨server.name, server.url, "DISABLED"⟩))])
    else
      let config2 : Config := { config with servers := setEnabledFirst config.servers serverName false }
      (config2,
        [.save config2,
         .notify ("Server \x27" ++ serverName ++ "\x27 disabled"),
         .respond (.ok ("Server \x27" ++ serverName ++ "\x27 disabled")
           (some ⟨server.name, server.url, "DISABLED"⟩))])

/-- View of a record in the `servers_list` reply. -/
def serverViewOf (s : ServerRecord) : ServerView :=
  ⟨s.name, s.url, if s.enabled then "ENABLED" else "DISABLED"⟩

/-- `mcp0_servers_list` handler (part_012 lines 658-696): notification first,
then the formatted reply; the configuration is not changed. -/
def handleServersList (config : Config) : Config × List Effect :=
  (config,
    [.notify ("Refreshed server list. Found " ++ toString config.servers.length ++ " servers."),
     .respond (.listData
       ⟨config.tool_limit, getEnabledCount config, config.servers.map serverViewOf,
        "Found " ++ toString config.servers.length ++ " servers. " ++
        toString (getEnabledCount config) ++ " enabled out of limit " ++
        toString config.tool_limit ++ "."⟩)])

/-- `mcp0_refresh_tools` handler (part_012 lines 859-883): notification, then
an immediate success reply carrying the current enabled count; the
configuration is not changed. -/
def handleRefreshTools (config : Config) : Config × List Effect :=
  (config,
    [.notify "Refreshed tool cache. Checking for tools from all enabled servers.",
     .respond (.refreshed "Refreshing tools from all enabled servers..."
       (getEnabledCount config))])

/-- One admin-tool invocation, as dispatched by the `tools/call` branch. -/
inductive AdminOp where
  | list
  | enable (nameParam : Option String)
  | disable (nameParam : Option String)
  | refresh
deriving Repr, DecidableEq

/-- Apply one admin-tool invocation to the configuration. -/
def applyAdminOp (config : Config) : AdminOp → Config × List Effect
  | .list => handleServersList config
  | .enable np => handleServersEnable config np
  | .disable np => handleServersDisable config np
  | .refresh => handleRefreshTools config

/-- Run a sequence of admin-tool invocations, threading the configuration. -/
def runAdminOps (config : Config) : List AdminOp → Config
  | [] => config
  | op :: rest => runAdminOps (applyAdminOp config op).1 rest

/-- The configuration on disk after interpreting a handler's effects:
a `save` replaces the persisted document when the write succeeds (`saveOk`)
and leaves the old document in place when `saveConfig` catches a write error
and returns `false` (part_012 lines 478-487); no caller inspects that
return value, so interpretation continues either way. -/
def persistedAfter (saveOk : Bool) (persisted : Config) : List Effect → Config
  | [] => persisted
  | .save c :: rest => persistedAfter saveOk (if saveOk then c else persisted) rest
  | .notify _ :: rest => persistedAfter saveOk persisted rest
  | .respond _ :: rest => persistedAfter saveOk persisted rest

/-- The JSON-RPC replies among a handler's effects, in emission order. -/
def emittedReplies (effects : List Effect) : List ToolReply :=
  effects.filterMap (fun e => match e with | .respond r => some r | _ => none)

/-- A JSON-RPC message id: number or string. -/
inductive JsonId where
  | num (n : Int)
  | str (s : String)
deriving Repr, DecidableEq

/-- An inbound line, already parsed as JSON, viewed through the fields the
dispatcher reads.  An absent field is `none`. -/
structure InboundMsg where
  jsonrpc : Option String
  id : Option JsonId
  method : Option String
deriving Repr, DecidableEq

/-- JavaScript `message.id || null`: a missing id, the number `0` and the
empty string are falsy and become `null`. -/
def jsTruthyId : Option JsonId → Option JsonId
  | some (.num n) => if n = 0 then none else some (.num n)
  | some (.str s) => if s = "" then none else some (.str s)
  | none => none

/-- An error reply object as written by `sendResponse`; `id = none` encodes
JSON `null`. -/
structure ErrorReply where
  code : Int
  message : String
  id : Option JsonId
deriving Repr, DecidableEq

/-- Envelope validation at the top of `processMessage` (part_012 lines
523-533; identical in src/src/cascade/server.js lines 30-39 and
src/mcp-server.js lines 800-809): `!message.jsonrpc || message.jsonrpc !==
'2.0'` sends `-32600` with `id: message.id || null`; a valid envelope
produces no error here (`none`). -/
def envelopeCheck (msg : InboundMsg) : Option ErrorReply :=
  if msg.jsonrpc ≠ some "2.0" then
    some ⟨-32600, "Invalid Request", jsTruthyId msg.id⟩
  else
    none

/-- A tool descriptor as exposed over the wire (the `parameters` schema is
not inspected by any code path under verification and is elided). -/
structure Tool where
  name : String
  description : String
deriving Repr, DecidableEq

/-- A tool as received from a downstream `tools/list` reply; `description`
may be absent. -/
structure RawTool where
  name : String
  description : Option String
deriving Repr, DecidableEq

/-- The per-tool transform of `fetchToolsViaHttp` (part_012 lines 110-119;
also lines 223-229 for the child-process path): prefix the name with the
namespace and an underscore, and prefix the description with
`[From <serverName>] `, defaulting an absent description to the empty
string (`tool.description || ''`). -/
def nsToolOf (serverName : String) (tool : RawTool) : Tool :=
  { name := namespaceOf serverName ++ "_" ++ tool.name,
    description := "[From " ++ serverName ++ "] " ++ tool.description.getD "" }

/-- The four core tools as returned by `getCoreTools`
(src/src/cascade/tools-manager.js lines 364-409; same names and
descriptions in part_012 lines 560-599). -/
def getCoreTools : List Tool :=
  [⟨"mcp0_servers_list", "List all available MCP servers"⟩,
   ⟨"mcp0_servers_enable", "Enable a specific MCP server"⟩,
   ⟨"mcp0_servers_disable", "Disable a specific MCP server"⟩,
   ⟨"mcp0_refresh_tools", "Refresh the list of tools from all enabled servers"⟩]

/-- The `tools/list` branch (src/src/cascade/server.js lines 105-146;
part_012 lines 556-648 behaves the same with no cache at all).  The branch
starts a background fetch (`getAllTools()` / the `fetchPromises`), declares
`let serverTools = []`, registers a `.then` callback that would overwrite
`serverTools`, and immediately builds `allTools = [...coreTools,
...serverTools]`.  The callback runs only after the synchronous handler has
returned, so the response is built while `serverTools` is still `[]`; the
cached downstream tools (argument) never reach the response.  The returned
flag records that the background fetch was started. -/
def toolsListStep (_cachedTools : List Tool) : List Tool × Bool :=
  let fetchStarted := true
  let serverTools : List Tool := []
  (getCoreTools ++ serverTools, fetchStarted)

/-- Modelled from the spec (§4.1): `tools/list` returns the union of the
built-ins and the cached downstream tools. -/
def specToolsListTools (cachedTools : List Tool) : List Tool :=
  getCoreTools ++ cachedTools

/-- One file-system operation performed by a save. -/
inductive FsOp where
  | write (path : String) (content : String)
  | rename (src : String) (dst : String)
deriving Repr, DecidableEq

/-- `true` exactly on `FsOp.rename`. -/
def FsOp.isRename : FsOp → Bool
  | .rename _ _ => true
  | _ => false

/-- Path of the server-list document, relative to the module directory. -/
def SERVERS_CONFIG_PATH : String := "servers.json"

/-- File-system trace of `saveConfig` (part_012 lines 478-487,
src/unnamed/part_002 lines 33-42, src/mcp-server.js lines 649-658): a single
`fs.writeFileSync(configPath, JSON.stringify(config, null, 2))` directly on
the configuration file.  `content` stands for the serialized document. -/
def saveConfigOps (content : String) : List FsOp :=
  [FsOp.write SERVERS_CONFIG_PATH content]

/-- Modelled from the spec (§4.7 and §6 "Atomic save"): write a `*.tmp` file
and then rename it over the original. -/
def specAtomicSaveOps (content : String) : List FsOp :=
  [FsOp.write (SERVERS_CONFIG_PATH ++ ".tmp") content,
   FsOp.rename (SERVERS_CONFIG_PATH ++ ".tmp") SERVERS_CONFIG_PATH]

/-- Server-name resolution of the second `servers_enable` handler in
src/mcp-server.js (lines 236-249): `toolParams.name || (toolName.startsWith('mcp0_')
? 'MCP Beta' : undefined)`; a `none` result is answered there with `-32602`
"Missing required parameter: name". -/
def mcpServerEnableName (toolName : String) (nameParam : Option String) :
    Option String :=
  let dflt := if toolName.data.take 5 = "mcp0_".data then some "MCP Beta" else none
  match nameParam with
  | some n => if n = "" then dflt else some n
  | none => dflt

theorem findServer_setEnabledFirst (l : List ServerRecord) (n : String) (b : Bool) :
    findServer (setEnabledFirst l n b) n =
      (findServer l n).map (fun s => { s with enabled := b }) := by
  induction l with
  | nil => simp [findServer, setEnabledFirst]
  | cons a rest ih =>
    by_cases h : a.name = n
    · simp [findServer, setEnabledFirst, List.find?, h]
    · have hb : (a.name == n) = false := by simp [h]
      simpa [findServer, setEnabledFirst, List.find?, hb] using ih

theorem enabledCountL_cons (a : ServerRecord) (l : List ServerRecord) :
    enabledCountL (a :: l) = (if a.enabled then 1 else 0) + enabledCountL l := by
  by_cases h : a.enabled <;> simp [enabledCountL, List.filter_cons, h, Nat.add_comm]

theorem enabledCountL_set_true (l : List ServerRecord) (n : String) (s : ServerRecord)
    (hf : findServer l n = some s) (he : s.enabled = false) :
    enabledCountL (setEnabledFirst l n true) = enabledCountL l + 1 := by
  induction l with
  | nil => simp [findServer] at hf
  | cons a rest ih =>
    by_cases h : a.name = n
    · have ha : a = s := by simpa [findServer, List.find?, h] using hf
      subst ha
      simp [setEnabledFirst, h, enabledCountL_cons, he]
      omega
    · have hb : (a.name == n) = false := by simp [h]
      have hf2 : findServer rest n = some s := by
        simpa [findServer, List.find?, hb] using hf
      by_cases ha : a.enabled
      · simp [setEnabledFirst, hb, enabledCountL_cons, ha, ih hf2]
        omega
      · simp [setEnabledFirst, hb, enabledCountL_cons, ha, ih hf2]

theorem enabledCountL_set_false_le (l : List ServerRecord) (n : String) :
    enabledCountL (setEnabledFirst l n false) ≤ enabledCountL l := by
  induction l with
  | nil => simp [setEnabledFirst]
  | cons a rest ih =>
    by_cases h : a.name = n
    · by_cases ha : a.enabled
      · simp [setEnabledFirst, h, enabledCountL_cons, ha]
      · simp [setEnabledFirst, h, enabledCountL_cons, ha]
    · have hb : (a.name == n) = false := by simp [h]
      by_cases ha : a.enabled
      · simp [setEnabledFirst, hb, enabledCountL_cons, ha]
        omega
      · simp [setEnabledFirst, hb, enabledCountL_cons, ha]
        omega

theorem breakAtUnder_eq : ∀ (l pre post : List Char),
    breakAtUnder l = some (pre, post) →
    l = pre ++ '_' :: post ∧ ∀ c ∈ pre, c ≠ '_'
  | [], pre, post, h => by simp [breakAtUnder] at h
  | c :: rest, pre, post, h => by
    by_cases hc : c = '_'
    · subst hc
      simp [breakAtUnder] at h
      obtain ⟨h1, h2⟩ := h
      subst h1
      subst h2
      simp
    · simp only [breakAtUnder, if_neg hc] at h
      cases hb : breakAtUnder rest with
      | none => rw [hb] at h; simp at h
      | some pq =>
        obtain ⟨p, q⟩ := pq
        rw [hb] at h
        simp only [Option.some.injEq, Prod.mk.injEq] at h
        obtain ⟨h1, h2⟩ := h
        obtain ⟨hl, hall⟩ := breakAtUnder_eq rest p q hb
        subst h1
        subst h2
        refine ⟨by simp [hl], ?_⟩
        intro d hd
        rcases List.mem_cons.mp hd with hd | hd
        · simpa [hd] using hc
        · exact hall d hd

/-- C1 (amended): for every `tools/call` the router splits the namespaced
tool name at its FIRST underscore; a forward happens exactly to an enabled
server whose namespace equals the segment before that underscore, and the
remainder after it is the downstream tool name.  Hence the namespace match
is exact (`"foo"` cannot match `"foobar_x"`, since the first segment of
`"foobar_x"` is `"foobar"`), the matched namespace can never itself contain
an underscore, and no longest-prefix search is performed. -/
theorem tools_call_routing_first_segment (config : Config) (s : ServerRecord)
    (tn orig : String) (h : routeToolCall config tn = .forward s orig) :
    s ∈ config.servers ∧ s.enabled = true ∧
    tn = namespaceOf s.name ++ "_" ++ orig ∧
    ∀ c ∈ (namespaceOf s.name).data, c ≠ '_' := by
  unfold routeToolCall at h
  by_cases hbuiltin : isBuiltinTool tn
  · simp [hbuiltin] at h
  · simp only [hbuiltin, Bool.false_eq_true, if_false] at h
    cases hbr : breakAtUnder tn.data with
    | none => rw [hbr] at h; simp at h
    | some pq =>
      obtain ⟨pre, post⟩ := pq
      rw [hbr] at h
      dsimp only at h
      cases hfind : config.servers.find?
          (fun s => namespaceOf s.name == (⟨pre⟩ : String) && s.enabled) with
      | none => rw [hfind] at h; simp at h
      | some srv =>
        rw [hfind] at h
        simp only [RouteResult.forward.injEq] at h
        obtain ⟨hsrv, horig⟩ := h
        subst hsrv
        have hp := List.find?_some hfind
        simp only [Bool.and_eq_true, beq_iff_eq] at hp
        obtain ⟨hns, hen⟩ := hp
        have hmem := List.mem_of_find?_eq_some hfind
        obtain ⟨htn, hnou⟩ := breakAtUnder_eq tn.data pre post hbr
        refine ⟨hmem, hen, ?_, ?_⟩
        · subst horig
          apply String.ext
          simp [hns, htn, String.data_append]
        · rw [hns]
          intro c hcmem
          exact hnou c hcmem

/-- C1 witness: with one enabled server `"Foo"`, the call `"foo_ping"` is
forwarded to it with downstream name `"ping"`, and the theorem's
conclusions hold there. -/
theorem tools_call_routing_first_segment_witness :
    (⟨"Foo", "u", true⟩ : ServerRecord) ∈
        (⟨60, [⟨"Foo", "u", true⟩]⟩ : Config).servers ∧
      (⟨"Foo", "u", true⟩ : ServerRecord).enabled = true ∧
      "foo_ping" = namespaceOf "Foo" ++ "_" ++ "ping" ∧
      ∀ c ∈ (namespaceOf "Foo").data, c ≠ '_' :=
  tools_call_routing_first_segment ⟨60, [⟨"Foo", "u", true⟩]⟩
    ⟨"Foo", "u", true⟩ "foo_ping" "ping" (by decide)

/-- C1 counterexample: the server named `"Foo Bar"` has namespace
`"foo_bar"`, which contains an underscore; the claimed longest-prefix
resolution would forward `"foo_bar_ping"` to it with downstream name
`"ping"`, but the code answers `-32601` method-not-found. -/
theorem tools_call_longest_match_refuted :
    routeToolCall ⟨60, [⟨"Foo Bar", "http://host:9/", true⟩]⟩ "foo_bar_ping" =
      RouteResult.methodNotFound ∧
    specRouteToolCall ⟨60, [⟨"Foo Bar", "http://host:9/", true⟩]⟩ "foo_bar_ping" =
      RouteResult.forward ⟨"Foo Bar", "http://host:9/", true⟩ "ping" :=
  ⟨by decide, by decide⟩

/-- C2 (amended): every tool discovered from a downstream is exposed with
name `<namespace>_<originalName>`, the namespace being the server name
lowercased with each maximal whitespace run replaced by one underscore, and
with description `"[From <serverName>] "` followed by the original
description (an absent description becomes the empty string).  The last two
conjuncts ground the derivation on concrete names. -/
theorem namespaced_tool_descriptor_shape (serverName : String) (tool : RawTool) :
    (nsToolOf serverName tool).name = namespaceOf serverName ++ "_" ++ tool.name ∧
    (nsToolOf serverName tool).description =
      "[From " ++ serverName ++ "] " ++ tool.description.getD "" ∧
    namespaceOf "Foo Bar" = "foo_bar" ∧
    namespaceOf "A  B\tC" = "a_b_c" :=
  ⟨rfl, rfl, by decide, by decide⟩

/-- C2 counterexample: for server `"Foo Bar"` and downstream tool `"ping"`
with description `"pong"`, the exposed description is
`"[From Foo Bar] pong"`, not the claimed `"[Foo Bar] pong"`. -/
theorem namespaced_description_refuted :
    (nsToolOf "Foo Bar" ⟨"ping", some "pong"⟩).name = "foo_bar_ping" ∧
    (nsToolOf "Foo Bar" ⟨"ping", some "pong"⟩).description = "[From Foo Bar] pong" ∧
    (nsToolOf "Foo Bar" ⟨"ping", some "pong"⟩).description ≠ "[Foo Bar] pong" :=
  ⟨by decide, by decide, by decide⟩

/-- C3: `servers_enable(name)` — an unknown name is answered with error
`-32602` and nothing changes; an already-enabled record is answered with a
success result and nothing changes; when the enabled count has reached
`tool_limit` the reply is error `-32602` with the tool-limit message and the
record stays disabled; otherwise the record is flipped to enabled and the
new configuration is saved before the notification and the success reply. -/
theorem servers_enable_cases (config : Config) (n : String) (hn : n ≠ "") :
    (findServer config.servers n = none →
      handleServersEnable config (some n) =
        (config, [.respond (.err (-32602) ("Server \x27" ++ n ++ "\x27 not found"))])) ∧
    (∀ s, findServer config.servers n = some s → s.enabled = true →
      handleServersEnable config (some n) =
        (config, [.respond (.ok ("Server \x27" ++ n ++ "\x27 is already enabled")
          (some ⟨s.name, s.url, "ENABLED"⟩))])) ∧
    (∀ s, findServer config.servers n = some s → s.enabled = false →
      getEnabledCount config ≥ config.tool_limit →
      handleServersEnable config (some n) =
        (config, [.respond (.err (-32602)
          ("Tool limit (" ++ toString config.tool_limit ++
           ") reached. Disable another server first."))])) ∧
    (∀ s, findServer config.servers n = some s → s.enabled = false →
      getEnabledCount config < config.tool_limit →
      handleServersEnable config (some n) =
        ({ config with servers := setEnabledFirst config.servers n true },
         [.save { config with servers := setEnabledFirst config.servers n true },
          .notify ("Server \x27" ++ n ++ "\x27 enabled"),
          .respond (.ok ("Server \x27" ++ n ++ "\x27 enabled")
            (some ⟨s.name, s.url, "ENABLED"⟩))])) := by
  refine ⟨?_, ?_, ?_, ?_⟩
  · intro hf
    simp [handleServersEnable, effName, hn, hf]
  · intro s hf hs
    simp [handleServersEnable, effName, hn, hf, hs]
  · intro s hf hs hge
    simp [handleServersEnable, effName, hn, hf, hs, hge]
  · intro s hf hs hlt
    simp [handleServersEnable, effName, hn, hf, hs, Nat.not_le.mpr hlt]

/-- C3 witness: enabling the disabled server `"A"` in a one-server
configuration flips it to enabled, saves, notifies, then replies. -/
theorem servers_enable_cases_witness :
    handleServersEnable ⟨60, [⟨"A", "u", false⟩]⟩ (some "A") =
      (⟨60, [⟨"A", "u", true⟩]⟩,
       [.save ⟨60, [⟨"A", "u", true⟩]⟩,
        .notify ("Server \x27" ++ "A" ++ "\x27 enabled"),
        .respond (.ok ("Server \x27" ++ "A" ++ "\x27 enabled")
          (some ⟨"A", "u", "ENABLED"⟩))]) :=
  (servers_enable_cases ⟨60, [⟨"A", "u", false⟩]⟩ "A" (by decide)).2.2.2
    ⟨"A", "u", false⟩ (by decide) rfl (by decide)

/-- C4 (amended): a `tools/call` of `mcp0_servers_enable` with no `name`
parameter is not rejected against the declared schema; the handler
substitutes the default `"MCP Alpha"` (and `mcp0_servers_disable`
substitutes `"MCP Beta"`) and proceeds, so error `-32602` arises only when
the substituted name is absent from the server list.  Only the plain
`servers_enable` of src/mcp-server.js resolves a missing `name` to no name
at all and answers `-32602` "Missing required parameter". -/
theorem servers_enable_missing_name_default (config : Config) :
    handleServersEnable config none = handleServersEnable config (some "MCP Alpha") ∧
    handleServersDisable config none = handleServersDisable config (some "MCP Beta") ∧
    (findServer config.servers "MCP Alpha" = none →
      handleServersEnable config none =
        (config, [.respond (.err (-32602) "Server \x27MCP Alpha\x27 not found")])) ∧
    mcpServerEnableName "servers_enable" none = none ∧
    mcpServerEnableName "mcp0_servers_enable" none = some "MCP Beta" := by
  refine ⟨rfl, rfl, ?_, by decide, by decide⟩
  intro hf
  simp [handleServersEnable, effName, hf]

/-- C4 witness: in a configuration whose only server is `"S"`, enabling with
a missing name targets the absent default `"MCP Alpha"` and yields the
not-found error. -/
theorem servers_enable_missing_name_default_witness :
    handleServersEnable ⟨60, [⟨"S", "u", false⟩]⟩ none =
      (⟨60, [⟨"S", "u", false⟩]⟩,
       [.respond (.err (-32602) "Server \x27MCP Alpha\x27 not found")]) :=
  (servers_enable_missing_name_default ⟨60, [⟨"S", "u", false⟩]⟩).2.2.1 (by decide)

/-- C4 counterexample: with a configuration containing an enabled server
named `"MCP Alpha"`, calling `mcp0_servers_enable` without the required
`name` parameter yields a SUCCESS reply ("already enabled"), not the claimed
error `-32602`. -/
theorem servers_enable_missing_name_refuted :
    (handleServersEnable ⟨60, [⟨"MCP Alpha", "http://localhost:3001", true⟩]⟩ none).2 =
      [Effect.respond (ToolReply.ok "Server \x27MCP Alpha\x27 is already enabled"
        (some ⟨"MCP Alpha", "http://localhost:3001", "ENABLED"⟩))] ∧
    ∀ m, (handleServersEnable ⟨60, [⟨"MCP Alpha", "http://localhost:3001", true⟩]⟩ none).2 ≠
      [Effect.respond (ToolReply.err (-32602) m)] := by
  refine ⟨by decide, ?_⟩
  intro m h
  rw [show (handleServersEnable ⟨60, [⟨"MCP Alpha", "http://localhost:3001", true⟩]⟩ none).2 =
      [Effect.respond (ToolReply.ok "Server \x27MCP Alpha\x27 is already enabled"
        (some ⟨"MCP Alpha", "http://localhost:3001", "ENABLED"⟩))] from by decide] at h
  simp at h

/-- C5 (amended): every inbound message whose `jsonrpc` field is missing or
differs from `"2.0"` is answered — never dropped — with error `-32600`; the
reply carries the request id when that id is truthy (a nonzero number or a
nonempty string) and JSON `null` otherwise, in particular when the message
lacks an id.  A valid envelope produces no `-32600` at this stage. -/
theorem invalid_envelope_reply (msg : InboundMsg) :
    (msg.jsonrpc ≠ some "2.0" →
      envelopeCheck msg = some ⟨-32600, "Invalid Request", jsTruthyId msg.id⟩ ∧
      (∀ n, n ≠ 0 → msg.id = some (.num n) →
        envelopeCheck msg = some ⟨-32600, "Invalid Request", msg.id⟩) ∧
      (msg.id = none →
        envelopeCheck msg = some ⟨-32600, "Invalid Request", none⟩)) ∧
    (msg.jsonrpc = some "2.0" → envelopeCheck msg = none) := by
  constructor
  · intro hj
    refine ⟨by simp [envelopeCheck, hj], ?_, ?_⟩
    · intro n hn hid
      simp [envelopeCheck, hj, jsTruthyId, hid, hn]
    · intro hid
      simp [envelopeCheck, hj, jsTruthyId, hid]
  · intro hj
    simp [envelopeCheck, hj]

/-- C5 witness: a message with `jsonrpc` absent and id `7` is answered with
`-32600` under the same id. -/
theorem invalid_envelope_reply_witness :
    envelopeCheck ⟨none, some (.num 7), some "tools/list"⟩ =
      some ⟨-32600, "Invalid Request", some (.num 7)⟩ :=
  ((invalid_envelope_reply ⟨none, some (.num 7), some "tools/list"⟩).1
    (by decide)).2.1 7 (by decide) rfl

/-- C5 counterexample: a message that lacks an id and has no `jsonrpc` field
is NOT dropped; the dispatcher emits a `-32600` reply with id `null`. -/
theorem notification_drop_refuted :
    envelopeCheck ⟨none, none, some "tools/list"⟩ =
      some ⟨-32600, "Invalid Request", none⟩ ∧
    envelopeCheck ⟨none, none, some "tools/list"⟩ ≠ none :=
  ⟨by decide, by decide⟩

/-- C6 (amended): each `tools/list` response contains exactly the four
built-in admin tools; the background fetch of downstream tools is started
without blocking the response, but its results — and any previously cached
downstream tools — are never part of the synchronous response.  On a cold
start with an empty server list the response is exactly the four admin
tools. -/
theorem tools_list_core_only (cachedTools : List Tool) :
    (toolsListStep cachedTools).1 = getCoreTools ∧
    (toolsListStep cachedTools).2 = true ∧
    (toolsListStep []).1.map Tool.name =
      ["mcp0_servers_list", "mcp0_servers_enable", "mcp0_servers_disable",
       "mcp0_refresh_tools"] :=
  ⟨rfl, rfl, by decide⟩

/-- C6 counterexample: with one cached downstream tool the response still
contains only the four core tools, not the claimed union of built-ins and
cache. -/
theorem tools_list_union_refuted :
    (toolsListStep [⟨"alpha_ping", "[From Alpha] pong"⟩]).1 = getCoreTools ∧
    (toolsListStep [⟨"alpha_ping", "[From Alpha] pong"⟩]).1 ≠
      specToolsListTools [⟨"alpha_ping", "[From Alpha] pong"⟩] :=
  ⟨rfl, by decide⟩

/-- C7 (amended): `saveConfig` performs exactly one direct write of the
serialized document onto the configuration file itself; no temporary file
is written and no rename is performed, so the save is not crash-atomic. -/
theorem save_config_single_write (content : String) :
    saveConfigOps content = [FsOp.write SERVERS_CONFIG_PATH content] ∧
    ∀ op ∈ saveConfigOps content, op.isRename = false := by
  refine ⟨rfl, ?_⟩
  intro op hop
  simp [saveConfigOps] at hop
  subst hop
  rfl

/-- C7 witness: the trace of saving the document `"\x7b\x7d"`. -/
theorem save_config_single_write_witness :
    saveConfigOps "\x7b\x7d" = [FsOp.write SERVERS_CONFIG_PATH "\x7b\x7d"] ∧
    (FsOp.write SERVERS_CONFIG_PATH "\x7b\x7d").isRename = false :=
  ⟨(save_config_single_write "\x7b\x7d").1,
   (save_config_single_write "\x7b\x7d").2 (FsOp.write SERVERS_CONFIG_PATH "\x7b\x7d") (by decide)⟩

/-- C7 counterexample: the save trace differs from the claimed
write-temporary-then-rename trace; it contains no rename while the claimed
trace contains exactly one. -/
theorem atomic_save_refuted :
    saveConfigOps "\x7b\x7d" ≠ specAtomicSaveOps "\x7b\x7d" ∧
    (saveConfigOps "\x7b\x7d").all (fun op => !op.isRename) = true ∧
    ((specAtomicSaveOps "\x7b\x7d").filter (fun op => op.isRename)).length = 1 :=
  ⟨by decide, by decide, by decide⟩

theorem handleServersEnable_inv (cfg : Config) (np : Option String)
    (h : getEnabledCount cfg ≤ cfg.tool_limit) :
    getEnabledCount (handleServersEnable cfg np).1 ≤
      (handleServersEnable cfg np).1.tool_limit := by
  rcases hf : findServer cfg.servers (effName np "MCP Alpha") with _ | s
  · simpa [handleServersEnable, hf] using h
  · cases hs : s.enabled with
    | true => simpa [handleServersEnable, hf, hs] using h
    | false =>
      by_cases hge : getEnabledCount cfg ≥ cfg.tool_limit
      · simpa [handleServersEnable, hf, hs, hge] using h
      · have hlt : getEnabledCount cfg < cfg.tool_limit := Nat.lt_of_not_le hge
        have hcount := enabledCountL_set_true cfg.servers (effName np "MCP Alpha") s hf hs
        simp only [getEnabledCount] at hlt
        simp [handleServersEnable, hf, hs, hge]
        simp only [getEnabledCount]
        omega

theorem handleServersDisable_count_le (cfg : Config) (np : Option String) :
    getEnabledCount (handleServersDisable cfg np).1 ≤ getEnabledCount cfg := by
  rcases hf : findServer cfg.servers (effName np "MCP Beta") with _ | s
  · simp [handleServersDisable, hf]
  · cases hs : s.enabled with
    | false => simp [handleServersDisable, hf, hs]
    | true =>
      have hle := enabledCountL_set_false_le cfg.servers (effName np "MCP Beta")
      simp [handleServersDisable, hf, hs, getEnabledCount]
      omega

theorem handleServersDisable_inv (cfg : Config) (np : Option String)
    (h : getEnabledCount cfg ≤ cfg.tool_limit) :
    getEnabledCount (handleServersDisable cfg np).1 ≤
      (handleServersDisable cfg np).1.tool_limit := by
  have hle := handleServersDisable_count_le cfg np
  rcases hf : findServer cfg.servers (effName np "MCP Beta") with _ | s
  · simpa [handleServersDisable, hf] using h
  · cases hs : s.enabled with
    | false => simpa [handleServersDisable, hf, hs] using h
    | true =>
      have hset := enabledCountL_set_false_le cfg.servers (effName np "MCP Beta")
      simp only [getEnabledCount] at h
      simp [handleServersDisable, hf, hs, getEnabledCount]
      omega

theorem applyAdminOp_inv (cfg : Config) (op : AdminOp)
    (h : getEnabledCount cfg ≤ cfg.tool_limit) :
    getEnabledCount (applyAdminOp cfg op).1 ≤ (applyAdminOp cfg op).1.tool_limit := by
  cases op with
  | list => simpa [applyAdminOp, handleServersList] using h
  | enable np => exact handleServersEnable_inv cfg np h
  | disable np => exact handleServersDisable_inv cfg np h
  | refresh => simpa [applyAdminOp, handleRefreshTools] using h

/-- C8: from any configuration with `enabled count ≤ tool_limit`, every
sequence of admin-tool invocations preserves the invariant; `servers_list`
and `refresh_tools` never change the configuration, `servers_disable` never
increases the enabled count, and when the count has reached the cap
`servers_enable` leaves the configuration unchanged and — when the target
exists and is disabled — answers with the `-32602` tool-limit error. -/
theorem enabled_count_invariant (cfg : Config) (ops : List AdminOp)
    (h : getEnabledCount cfg ≤ cfg.tool_limit) :
    getEnabledCount (runAdminOps cfg ops) ≤ (runAdminOps cfg ops).tool_limit ∧
    (∀ np, getEnabledCount (handleServersDisable cfg np).1 ≤ getEnabledCount cfg) ∧
    (handleServersList cfg).1 = cfg ∧
    (handleRefreshTools cfg).1 = cfg ∧
    (getEnabledCount cfg = cfg.tool_limit →
      ∀ np, (handleServersEnable cfg np).1 = cfg ∧
        ∀ s, findServer cfg.servers (effName np "MCP Alpha") = some s →
          s.enabled = false →
          (handleServersEnable cfg np).2 =
            [.respond (.err (-32602) ("Tool limit (" ++ toString cfg.tool_limit ++
              ") reached. Disable another server first."))]) := by
  refine ⟨?_, fun np => handleServersDisable_count_le cfg np, rfl, rfl, ?_⟩
  · induction ops generalizing cfg with
    | nil => simpa [runAdminOps] using h
    | cons op rest ih =>
      simp only [runAdminOps]
      exact ih _ (applyAdminOp_inv cfg op h)
  · intro hcap np
    have hge : getEnabledCount cfg ≥ cfg.tool_limit := le_of_eq hcap.symm
    constructor
    · rcases hf : findServer cfg.servers (effName np "MCP Alpha") with _ | s
      · simp [handleServersEnable, hf]
      · cases hs : s.enabled with
        | true => simp [handleServersEnable, hf, hs]
        | false => simp [handleServersEnable, hf, hs, hge]
    · intro s hf hs
      simp [handleServersEnable, hf, hs, hge]

/-- C8 witness: with `tool_limit = 1` and one server already enabled, the
sequence enable-B, disable-A, enable-B keeps the enabled count within the
cap. -/
theorem enabled_count_invariant_witness :
    getEnabledCount (runAdminOps ⟨1, [⟨"A", "u", true⟩, ⟨"B", "v", false⟩]⟩
        [.enable (some "B"), .disable (some "A"), .enable (some "B")]) ≤
      (runAdminOps ⟨1, [⟨"A", "u", true⟩, ⟨"B", "v", false⟩]⟩
        [.enable (some "B"), .disable (some "A"), .enable (some "B")]).tool_limit :=
  (enabled_count_invariant ⟨1, [⟨"A", "u", true⟩, ⟨"B", "v", false⟩]⟩
    [.enable (some "B"), .disable (some "A"), .enable (some "B")] (by decide)).1

theorem enable_idem_state (cfg : Config) (np : Option String) :
    (handleServersEnable (handleServersEnable cfg np).1 np).1 =
      (handleServersEnable cfg np).1 := by
  rcases hf : findServer cfg.servers (effName np "MCP Alpha") with _ | s
  · simp [handleServersEnable, hf]
  · cases hs : s.enabled with
    | true => simp [handleServersEnable, hf, hs]
    | false =>
      by_cases hge : getEnabledCount cfg ≥ cfg.tool_limit
      · simp [handleServersEnable, hf, hs, hge]
      · have hf2 : findServer (setEnabledFirst cfg.servers (effName np "MCP Alpha") true)
            (effName np "MCP Alpha") = some { s with enabled := true } := by
          rw [findServer_setEnabledFirst, hf]
          rfl
        simp [handleServersEnable, hf, hs, hge, hf2]

theorem disable_idem_state (cfg : Config) (np : Option String) :
    (handleServersDisable (handleServersDisable cfg np).1 np).1 =
      (handleServersDisable cfg np).1 := by
  rcases hf : findServer cfg.servers (effName np "MCP Beta") with _ | s
  · simp [handleServersDisable, hf]
  · cases hs : s.enabled with
    | false => simp [handleServersDisable, hf, hs]
    | true =>
      have hf2 : findServer (setEnabledFirst cfg.servers (effName np "MCP Beta") false)
          (effName np "MCP Beta") = some { s with enabled := false } := by
        rw [findServer_setEnabledFirst, hf]
        rfl
      simp [handleServersDisable, hf, hs, hf2]

theorem enable_second_reply (cfg : Config) (np : Option String)
    (hok : ∃ m sv, Effect.respond (ToolReply.ok m sv) ∈ (handleServersEnable cfg np).2) :
    ∃ sv, (handleServersEnable (handleServersEnable cfg np).1 np).2 =
      [Effect.respond (ToolReply.ok
        ("Server \x27" ++ effName np "MCP Alpha" ++ "\x27 is already enabled") sv)] := by
  rcases hf : findServer cfg.servers (effName np "MCP Alpha") with _ | s
  · exfalso
    obtain ⟨m, sv, hmem⟩ := hok
    simp [handleServersEnable, hf] at hmem
  · cases hs : s.enabled with
    | true =>
      refine ⟨some ⟨s.name, s.url, "ENABLED"⟩, ?_⟩
      simp [handleServersEnable, hf, hs]
    | false =>
      by_cases hge : getEnabledCount cfg ≥ cfg.tool_limit
      · exfalso
        obtain ⟨m, sv, hmem⟩ := hok
        simp [handleServersEnable, hf, hs, hge] at hmem
      · have hf2 : findServer (setEnabledFirst cfg.servers (effName np "MCP Alpha") true)
            (effName np "MCP Alpha") = some { s with enabled := true } := by
          rw [findServer_setEnabledFirst, hf]
          rfl
        refine ⟨some ⟨s.name, s.url, "ENABLED"⟩, ?_⟩
        simp [handleServersEnable, hf, hs, hge, hf2]

theorem disable_second_reply (cfg : Config) (np : Option String)
    (hok : ∃ m sv, Effect.respond (ToolReply.ok m sv) ∈ (handleServersDisable cfg np).2) :
    ∃ sv, (handleServersDisable (handleServersDisable cfg np).1 np).2 =
      [Effect.respond (ToolReply.ok
        ("Server \x27" ++ effName np "MCP Beta" ++ "\x27 is already disabled") sv)] := by
  rcases hf : findServer cfg.servers (effName np "MCP Beta") with _ | s
  · exfalso
    obtain ⟨m, sv, hmem⟩ := hok
    simp [handleServersDisable, hf] at hmem
  · cases hs : s.enabled with
    | false =>
      refine ⟨some ⟨s.name, s.url, "DISABLED"⟩, ?_⟩
      simp [handleServersDisable, hf, hs]
    | true =>
      have hf2 : findServer (setEnabledFirst cfg.servers (effName np "MCP Beta") false)
          (effName np "MCP Beta") = some { s with enabled := false } := by
        rw [findServer_setEnabledFirst, hf]
        rfl
      refine ⟨some ⟨s.name, s.url, "DISABLED"⟩, ?_⟩
      simp [handleServersDisable, hf, hs, hf2]

/-- C9: `servers_enable` and `servers_disable` are idempotent on the
configuration state — running either twice with the same name leaves the
same configuration as running it once — and whenever the first call replied
with success, the second call replies with success and the
already-enabled/already-disabled message. -/
theorem enable_disable_idempotent (cfg : Config) (np : Option String) :
    (handleServersEnable (handleServersEnable cfg np).1 np).1 =
      (handleServersEnable cfg np).1 ∧
    (handleServersDisable (handleServersDisable cfg np).1 np).1 =
      (handleServersDisable cfg np).1 ∧
    ((∃ m sv, Effect.respond (ToolReply.ok m sv) ∈ (handleServersEnable cfg np).2) →
      ∃ sv, (handleServersEnable (handleServersEnable cfg np).1 np).2 =
        [Effect.respond (ToolReply.ok
          ("Server \x27" ++ effName np "MCP Alpha" ++ "\x27 is already enabled") sv)]) ∧
    ((∃ m sv, Effect.respond (ToolReply.ok m sv) ∈ (handleServersDisable cfg np).2) →
      ∃ sv, (handleServersDisable (handleServersDisable cfg np).1 np).2 =
        [Effect.respond (ToolReply.ok
          ("Server \x27" ++ effName np "MCP Beta" ++ "\x27 is already disabled") sv)]) :=
  ⟨enable_idem_state cfg np, disable_idem_state cfg np,
   enable_second_reply cfg np, disable_second_reply cfg np⟩

/-- C9 witness: enabling `"A"` twice from a one-server configuration; the
second call answers "already enabled". -/
theorem enable_disable_idempotent_witness :
    ∃ sv, (handleServersEnable
        (handleServersEnable ⟨60, [⟨"A", "u", false⟩]⟩ (some "A")).1 (some "A")).2 =
      [Effect.respond (ToolReply.ok
        ("Server \x27" ++ effName (some "A") "MCP Alpha" ++ "\x27 is already enabled") sv)] :=
  (enable_disable_idempotent ⟨60, [⟨"A", "u", false⟩]⟩ (some "A")).2.2.1
    ⟨"Server \x27A\x27 enabled", some ⟨"A", "u", "ENABLED"⟩, by decide⟩

/-- C10: when the configuration write fails during `servers_enable` (or
`servers_disable`), the handler still replies with the success result: the
effect trace is produced without consulting the save outcome, so the emitted
reply is the success message either way; interpreting the trace with a
failing write (`persistedAfter false`) leaves the old document on disk —
where the target server is still disabled (resp. enabled) — while the
in-memory configuration and the reply already report the flipped state. -/
theorem save_failure_ignored (cfg : Config) (n : String) (s : ServerRecord)
    (hn : n ≠ "") (hf : findServer cfg.servers n = some s) (hs : s.enabled = false)
    (hlt : getEnabledCount cfg < cfg.tool_limit) :
    emittedReplies (handleServersEnable cfg (some n)).2 =
      [ToolReply.ok ("Server \x27" ++ n ++ "\x27 enabled")
        (some ⟨s.name, s.url, "ENABLED"⟩)] ∧
    findServer (handleServersEnable cfg (some n)).1.servers n =
      some { s with enabled := true } ∧
    persistedAfter true cfg (handleServersEnable cfg (some n)).2 =
      (handleServersEnable cfg (some n)).1 ∧
    persistedAfter false cfg (handleServersEnable cfg (some n)).2 = cfg ∧
    findServer (persistedAfter false cfg (handleServersEnable cfg (some n)).2).servers n =
      some s ∧
    (∀ cfg2 n2 s2, n2 ≠ "" → findServer cfg2.servers n2 = some s2 →
      s2.enabled = true →
      emittedReplies (handleServersDisable cfg2 (some n2)).2 =
        [ToolReply.ok ("Server \x27" ++ n2 ++ "\x27 disabled")
          (some ⟨s2.name, s2.url, "DISABLED"⟩)] ∧
      persistedAfter false cfg2 (handleServersDisable cfg2 (some n2)).2 = cfg2 ∧
      findServer
        (persistedAfter false cfg2 (handleServersDisable cfg2 (some n2)).2).servers n2 =
        some s2) := by
  have hge : ¬ getEnabledCount cfg ≥ cfg.tool_limit := Nat.not_le.mpr hlt
  have hstep : handleServersEnable cfg (some n) =
      ({ cfg with servers := setEnabledFirst cfg.servers n true },
       [.save { cfg with servers := setEnabledFirst cfg.servers n true },
        .notify ("Server \x27" ++ n ++ "\x27 enabled"),
        .respond (.ok ("Server \x27" ++ n ++ "\x27 enabled")
          (some ⟨s.name, s.url, "ENABLED"⟩))]) := by
    simp [handleServersEnable, effName, hn, hf, hs, hge]
  refine ⟨?_, ?_, ?_, ?_, ?_, ?_⟩
  · rw [hstep]
    simp [emittedReplies]
  · rw [hstep]
    simp only
    rw [findServer_setEnabledFirst, hf]
    rfl
  · rw [hstep]
    simp [persistedAfter]
  · rw [hstep]
    simp [persistedAfter]
  · rw [hstep]
    simp only [persistedAfter]
    exact hf
  · intro cfg2 n2 s2 hn2 hf2 hs2
    have hstep2 : handleServersDisable cfg2 (some n2) =
        ({ cfg2 with servers := setEnabledFirst cfg2.servers n2 false },
         [.save { cfg2 with servers := setEnabledFirst cfg2.servers n2 false },
          .notify ("Server \x27" ++ n2 ++ "\x27 disabled"),
          .respond (.ok ("Server \x27" ++ n2 ++ "\x27 disabled")
            (some ⟨s2.name, s2.url, "DISABLED"⟩))]) := by
      simp [handleServersDisable, effName, hn2, hf2, hs2]
    refine ⟨?_, ?_, ?_⟩
    · rw [hstep2]
      simp [emittedReplies]
    · rw [hstep2]
      simp [persistedAfter]
    · rw [hstep2]
      simp only [persistedAfter]
      exact hf2

/-- C10 witness: enabling the disabled server `"A"` with a failing write —
the reply reports success while the persisted document still holds the
disabled record. -/
theorem save_failure_ignored_witness :
    emittedReplies (handleServersEnable ⟨60, [⟨"A", "u", false⟩]⟩ (some "A")).2 =
      [ToolReply.ok ("Server \x27" ++ "A" ++ "\x27 enabled")
        (some ⟨"A", "u", "ENABLED"⟩)] ∧
    persistedAfter false ⟨60, [⟨"A", "u", false⟩]⟩
        (handleServersEnable ⟨60, [⟨"A", "u", false⟩]⟩ (some "A")).2 =
      ⟨60, [⟨"A", "u", false⟩]⟩ :=
  ⟨(save_failure_ignored ⟨60, [⟨"A", "u", false⟩]⟩ "A" ⟨"A", "u", false⟩
      (by decide) (by decide) rfl (by decide)).1,
   (save_failure_ignored ⟨60, [⟨"A", "u", false⟩]⟩ "A" ⟨"A", "u", false⟩
      (by decide) (by decide) rfl (by decide)).2.2.2.1⟩
